import Mathlib

/-!
Shallow embedding of the builder-assistant pipeline (src/index.js):
context sampling under a byte/file budget (`sampleRepoContext`), the
sentinel short-circuit and bounded-retry apply state machine of `main`
and `applyOrRetry`, and the commit/push/pull-request tail of the run.

External effects (filesystem enumeration, the model calls, `git apply`)
are modelled as oracle inputs in environment structures; the control
flow and all constants are translated directly from the source.
-/

namespace BuilderAssistant

/-- A candidate file as the sampler sees it: its path relative to the
repository root, the byte size reported by `fs.stat`, and the contents
later read by `fs.readFile`. -/
structure RepoFile where
  path : String
  size : Nat
  content : String
deriving DecidableEq

/-- The fixed per-file hard cap from `size < 3_000` in `sampleRepoContext`. -/
def perFileCap : Nat := 3000

/-- Default `maxFiles = 25` of `sampleRepoContext`. -/
def defaultMaxFiles : Nat := 25

/-- Default `maxBytes = 40_000` of `sampleRepoContext`. -/
def defaultMaxBytes : Nat := 40000

/-- The admission test of the sampling loop:
`if (size < 3_000 && budget - size > 0)`.  JavaScript evaluates
`budget - size > 0` over numbers; since `budget` stays nonnegative,
this is equivalent to the truncated `Nat` subtraction test used here
(both say `size < budget`). -/
def admits (budget : Nat) (f : RepoFile) : Prop :=
  f.size < perFileCap ∧ 0 < budget - f.size

instance (budget : Nat) (f : RepoFile) : Decidable (admits budget f) :=
  inferInstanceAs (Decidable (f.size < perFileCap ∧ 0 < budget - f.size))

/-- The `for (const f of candidates.sort(...))` loop body of
`sampleRepoContext`: `picked` accumulates admitted files in order,
`budget` is the remaining byte budget, and the loop breaks once
`picked.length >= maxFiles`. -/
def samplePickGo (maxFiles : Nat) : List RepoFile → List RepoFile → Nat → List RepoFile
  | [], picked, _ => picked
  | f :: rest, picked, budget =>
    if maxFiles ≤ picked.length then picked
    else if admits budget f then
      samplePickGo maxFiles rest (picked ++ [f]) (budget - f.size)
    else
      samplePickGo maxFiles rest picked budget

/-- `candidates.sort((a, b) => a.length - b.length)`: JavaScript's
`Array.prototype.sort` is specified stable, and insertion sort on the
total preorder `path.length ≤ path.length` produces exactly the stable
ordering (ties keep discovery order). -/
def sortByPathLength (l : List RepoFile) : List RepoFile :=
  List.insertionSort (fun a b => a.path.length ≤ b.path.length) l

/-- The list of files admitted by `sampleRepoContext`. -/
def sampledFiles (candidates : List RepoFile) (maxFiles maxBytes : Nat) : List RepoFile :=
  samplePickGo maxFiles (sortByPathLength candidates) [] maxBytes

/-- One `"FILE: <path>\n<contents>"` block. -/
def renderFile (f : RepoFile) : String :=
  "FILE: " ++ f.path ++ "\n" ++ f.content

/-- The ContextBundle string returned by `sampleRepoContext`:
rendered blocks joined by the end-of-file delimiter. -/
def sampleRepoContext (candidates : List RepoFile) (maxFiles maxBytes : Nat) : String :=
  String.intercalate "\n\n<<<END FILE>>>\n\n"
    ((sampledFiles candidates maxFiles maxBytes).map renderFile)

/-- Byte total of a bundle: the sum of the admitted files' sizes. -/
def sizeSum (l : List RepoFile) : Nat :=
  (l.map RepoFile.size).sum

/-- The reserved sentinel literal of the prompt contract. -/
def noChangesSentinel : String := "__NO_CHANGES__"

/-- Models JavaScript `String.prototype.trim` as used via `.trim()` on
every model response in `askForPatch`: strips leading and trailing
whitespace (space, tab, carriage return, line feed).  Defined over the
character list so it evaluates by kernel reduction. -/
def jsTrim (s : String) : String :=
  ⟨((s.data.dropWhile Char.isWhitespace).reverse.dropWhile Char.isWhitespace).reverse⟩

/-- Oracle environment for the apply state machine: `applyOk n p`
tells whether the `n`-th `git apply` invocation accepts patch text `p`,
and `reaskRaw` is the raw model content returned by the corrective
re-request (`askForPatch` trims it before use). -/
structure ApplyEnv where
  applyOk : Nat → String → Bool
  reaskRaw : String

/-- Observable outcome of `applyOrRetry`: the patch texts fed to
`git apply` in order, the number of corrective model re-requests, and
`some finalPatch` on success or `none` for the thrown
"patch failed twice" error. -/
structure ApplyTrace where
  attempts : List String
  reRequests : Nat
  result : Option String
deriving DecidableEq

/-- The `isRetry = true` activation of `applyOrRetry`: one `git apply`
attempt; on failure the error propagates (no further retry). -/
def retryAttempt (env : ApplyEnv) (patch : String) : ApplyTrace :=
  if env.applyOk 2 patch then ⟨[patch], 0, some patch⟩
  else ⟨[patch], 0, none⟩

/-- `applyOrRetry(patch)` (the `isRetry = false` entry): try
`git apply`; on failure, make one corrective re-request and recurse
with `isRetry = true` on the freshly trimmed response. -/
def applyOrRetry (env : ApplyEnv) (patch : String) : ApplyTrace :=
  if env.applyOk 1 patch then ⟨[patch], 0, some patch⟩
  else
    let t := retryAttempt env (jsTrim env.reaskRaw)
    ⟨patch :: t.attempts, 1 + t.reRequests, t.result⟩

/-- The pull request opened via `octokit.pulls.create`. -/
structure PullRequest where
  title : String
  head : String
  base : String
  body : String
deriving DecidableEq

/-- Terminal state of one run of `main`. -/
inductive RunOutcome where
  | usageError
  | noChanges
  | fatalError (msg : String)
  | success (patch : String)
deriving DecidableEq

/-- Observable trace of one run of `main` past the clone step. -/
structure RunTrace where
  applyAttempts : List String
  reRequests : Nat
  committed : Bool
  pushed : Bool
  prOpened : List PullRequest
  outcome : RunOutcome
deriving DecidableEq

/-- Oracle environment for `main`: the joined CLI arguments, the
`Date.now()` timestamp, the raw model content of the first response,
the raw content of the (possible) corrective re-request, the `git
apply` oracle, and the hosted repository's default branch (a property
of the external repository; the code never reads it). -/
structure MainEnv where
  argvTask : String
  now : Nat
  firstRaw : String
  reaskRaw : String
  applyOk : Nat → String → Bool
  defaultBranch : String

/-- `const branch = `ai-task-${Date.now()}`` of `main`. -/
def branchName (env : MainEnv) : String :=
  "ai-task-" ++ toString env.now

/-- The pull request `main` opens via `octokit.pulls.create`: title
`AI: <task>`, head the timestamped branch, base the literal `"main"`,
body ending in the task text. -/
def prOf (env : MainEnv) : PullRequest :=
  ⟨"AI: " ++ env.argvTask, branchName env, "main",
    "Automated patch generated by OpenAI\n\nTask:\n" ++ env.argvTask⟩

/-- Steps 5 and 6 of `main` after `applyOrRetry` returns: on a thrown
"patch failed twice" error, `main().catch` exits 1 with nothing
committed; on success, commit, push, and open the single pull
request. -/
def finishRun (env : MainEnv) (t : ApplyTrace) : RunTrace :=
  match t.result with
  | none =>
    ⟨t.attempts, t.reRequests, false, false, [], .fatalError "patch failed twice"⟩
  | some d =>
    ⟨t.attempts, t.reRequests, true, true, [prOf env], .success d⟩

/-- The run of `main`: usage check, first model response, sentinel
short-circuit, `applyOrRetry`, then commit, push and the pull
request. -/
def mainRun (env : MainEnv) : RunTrace :=
  if env.argvTask = "" then ⟨[], 0, false, false, [], .usageError⟩
  else
    let diff := jsTrim env.firstRaw
    if diff = noChangesSentinel then ⟨[], 0, false, false, [], .noChanges⟩
    else
      finishRun env (applyOrRetry ⟨env.applyOk, env.reaskRaw⟩ diff)

/-! Helper lemmas about the sampling loop. -/

/-- The loop never grows `picked` beyond the file-count limit. -/
theorem samplePickGo_length_le (m : Nat) :
    ∀ (files picked : List RepoFile) (b : Nat), picked.length ≤ m →
      (samplePickGo m files picked b).length ≤ m := by
  intro files
  induction files with
  | nil => intro picked b h; simpa [samplePickGo] using h
  | cons f rest ih =>
    intro picked b h
    simp only [samplePickGo]
    split
    · exact h
    · rename_i hlen
      split
      · apply ih
        have hlt : picked.length < m := Nat.lt_of_not_le hlen
        simpa using hlt
      · exact ih picked b h

/-- The loop adds at most `b` bytes beyond what `picked` already holds. -/
theorem samplePickGo_sizeSum_le (m : Nat) :
    ∀ (files picked : List RepoFile) (b : Nat),
      sizeSum (samplePickGo m files picked b) ≤ sizeSum picked + b := by
  intro files
  induction files with
  | nil => intro picked b; simp [samplePickGo]
  | cons f rest ih =>
    intro picked b
    simp only [samplePickGo]
    split
    · exact Nat.le_add_right _ _
    · split
      · rename_i hadm
        have hsize : f.size < b := by
          have h2 := hadm.2
          omega
        have e : sizeSum (picked ++ [f]) = sizeSum picked + f.size := by
          simp [sizeSum]
        calc sizeSum (samplePickGo m rest (picked ++ [f]) (b - f.size))
            ≤ sizeSum (picked ++ [f]) + (b - f.size) := ih _ _
          _ = sizeSum picked + b := by rw [e]; omega
      · exact ih picked b

/-- With a positive remaining budget the loop keeps the total strictly
below `sizeSum picked + b`: every admission leaves the budget positive. -/
theorem samplePickGo_sizeSum_lt (m : Nat) :
    ∀ (files picked : List RepoFile) (b : Nat), 0 < b →
      sizeSum (samplePickGo m files picked b) < sizeSum picked + b := by
  intro files
  induction files with
  | nil => intro picked b hb; simp [samplePickGo]; omega
  | cons f rest ih =>
    intro picked b hb
    simp only [samplePickGo]
    split
    · omega
    · split
      · rename_i hadm
        have h2 := hadm.2
        have e : sizeSum (picked ++ [f]) = sizeSum picked + f.size := by
          simp [sizeSum]
        have := ih (picked ++ [f]) (b - f.size) h2
        rw [e] at this
        omega
      · exact ih picked b hb

/-- Every file the loop returns was either already picked or passes the
per-file hard cap. -/
theorem samplePickGo_mem (m : Nat) :
    ∀ (files picked : List RepoFile) (b : Nat) (f : RepoFile),
      f ∈ samplePickGo m files picked b → f ∈ picked ∨ f.size < perFileCap := by
  intro files
  induction files with
  | nil =>
    intro picked b f h
    exact Or.inl (by simpa [samplePickGo] using h)
  | cons g rest ih =>
    intro picked b f h
    simp only [samplePickGo] at h
    split at h
    · exact Or.inl h
    · split at h
      · rename_i hadm
        rcases ih _ _ _ h with hmem | hcap
        · rcases List.mem_append.mp hmem with h1 | h2
          · exact Or.inl h1
          · have hfg : f = g := by simpa using h2
            exact Or.inr (hfg ▸ hadm.1)
        · exact Or.inr hcap
      · exact ih _ _ _ h

/-- The first attempted patch of `applyOrRetry` is the patch it was
handed. -/
theorem applyOrRetry_attempts_head (env : ApplyEnv) (patch : String) :
    (applyOrRetry env patch).attempts.head? = some patch := by
  by_cases h : env.applyOk 1 patch = true
  · simp [applyOrRetry, h]
  · simp [applyOrRetry, h]

/-! Claim theorems. -/

/-- C1, counterexample: with `maxBytes = 100` the sorted candidate list
is `a` (60 bytes), `bb` (50 bytes), `ccc` (10 bytes).  After `a` is
admitted the remaining budget is 40; admitting `bb` would drive it to
or below zero, so `bb` is skipped — yet sampling does not stop: the
later file `ccc` is still admitted.  This refutes "no file occurring
later in the sorted candidate list is admitted after the first
candidate whose admission would drive the remaining budget to zero or
below". -/
theorem sampling_stops_on_budget_cex :
    sortByPathLength [⟨"a", 60, ""⟩, ⟨"bb", 50, ""⟩, ⟨"ccc", 10, ""⟩]
      = [⟨"a", 60, ""⟩, ⟨"bb", 50, ""⟩, ⟨"ccc", 10, ""⟩] ∧
    ¬ admits 40 ⟨"bb", 50, ""⟩ ∧
    sampledFiles [⟨"a", 60, ""⟩, ⟨"bb", 50, ""⟩, ⟨"ccc", 10, ""⟩] defaultMaxFiles 100
      = [⟨"a", 60, ""⟩, ⟨"ccc", 10, ""⟩] := by
  refine ⟨by decide, by decide, by decide⟩

/-- C1, amended: sampling stops immediately once the file-count cap is
reached (the loop returns `picked` unchanged no matter what follows),
while a candidate whose admission would drive the remaining budget to
zero or below is merely skipped — the loop continues on the rest of the
list with the budget unchanged, so later files may still be admitted. -/
theorem sampling_stop_and_skip :
    (∀ (m : Nat) (files picked : List RepoFile) (b : Nat),
      m ≤ picked.length → samplePickGo m files picked b = picked) ∧
    (∀ (m : Nat) (f : RepoFile) (rest picked : List RepoFile) (b : Nat),
      picked.length < m → ¬ admits b f →
        samplePickGo m (f :: rest) picked b = samplePickGo m rest picked b) := by
  constructor
  · intro m files picked b h
    cases files with
    | nil => rfl
    | cons f rest => simp [samplePickGo, h]
  · intro m f rest picked b hlt hadm
    simp [samplePickGo, hadm, Nat.not_le.mpr hlt]

/-- C1, witness for the amended theorem: a picked list already at the
cap is returned unchanged, and a budget-violating head is skipped while
the loop continues. -/
theorem sampling_stop_and_skip_witness :
    samplePickGo 1 [⟨"bb", 50, ""⟩] [⟨"a", 60, ""⟩] 100 = [⟨"a", 60, ""⟩] ∧
    samplePickGo 5 [⟨"bb", 50, ""⟩, ⟨"ccc", 10, ""⟩] [] 40
      = samplePickGo 5 [⟨"ccc", 10, ""⟩] [] 40 :=
  ⟨sampling_stop_and_skip.1 1 _ _ 100 (by decide),
   sampling_stop_and_skip.2 5 _ _ [] 40 (by decide) (by decide)⟩

/-- C3: for every candidate list and configuration, the bundle's file
count never exceeds the configured file-count limit and its byte total
(sum of admitted sizes) never exceeds the configured byte budget. -/
theorem bundle_within_budget_and_count (candidates : List RepoFile) (m b : Nat) :
    (sampledFiles candidates m b).length ≤ m ∧
    sizeSum (sampledFiles candidates m b) ≤ b := by
  constructor
  · exact samplePickGo_length_le m _ [] b (Nat.zero_le m)
  · simpa [sizeSum] using samplePickGo_sizeSum_le m (sortByPathLength candidates) [] b

/-- C7: sampling is deterministic — on identical candidate lists (same
paths, sizes, contents, same discovery order) and identical
configuration, two runs of the sampler produce byte-identical
ContextBundle strings. -/
theorem sampling_deterministic (c₁ c₂ : List RepoFile) (m₁ m₂ b₁ b₂ : Nat)
    (hc : c₁ = c₂) (hm : m₁ = m₂) (hb : b₁ = b₂) :
    sampleRepoContext c₁ m₁ b₁ = sampleRepoContext c₂ m₂ b₂ := by
  subst hc; subst hm; subst hb; rfl

/-- C7, witness: two runs on a concrete identical snapshot agree. -/
theorem sampling_deterministic_witness :
    sampleRepoContext [⟨"a", 6, "hello"⟩, ⟨"bb", 4, "hi"⟩] defaultMaxFiles defaultMaxBytes
      = sampleRepoContext [⟨"a", 6, "hello"⟩, ⟨"bb", 4, "hi"⟩] defaultMaxFiles defaultMaxBytes :=
  sampling_deterministic _ _ _ _ _ _ rfl rfl rfl

/-- C8: a candidate whose size is at or above the 3000-byte per-file
cap is never part of the sampled bundle, whatever the remaining
budget. -/
theorem per_file_cap_enforced (candidates : List RepoFile) (m b : Nat)
    (f : RepoFile) (h : perFileCap ≤ f.size) :
    f ∉ sampledFiles candidates m b := by
  intro hmem
  rcases samplePickGo_mem m _ [] b f hmem with h0 | hcap
  · simp at h0
  · exact absurd hcap (Nat.not_lt.mpr h)

/-- C8, witness: a 3000-byte file is excluded even with the whole
default budget free. -/
theorem per_file_cap_enforced_witness :
    (⟨"z", 3000, ""⟩ : RepoFile) ∉ sampledFiles [⟨"z", 3000, ""⟩] defaultMaxFiles defaultMaxBytes :=
  per_file_cap_enforced _ _ _ _ (by decide)

/-- C10, counterexample: with a configured byte budget of 0 nothing is
admitted and the bundle's byte total equals the budget (both are 0), so
the total is not always strictly less than the configured budget. -/
theorem strict_budget_cex :
    sizeSum (sampledFiles [⟨"a", 5, "x"⟩] defaultMaxFiles 0) = 0 ∧
    ¬ sizeSum (sampledFiles [⟨"a", 5, "x"⟩] defaultMaxFiles 0) < 0 := by
  refine ⟨by decide, by decide⟩

/-- C10, amended: admission is strict — a candidate whose size equals
the remaining budget is rejected — and whenever the configured byte
budget is positive the bundle's byte total is strictly below it (with a
zero budget the total equals the budget, both being zero). -/
theorem strict_budget_amended (candidates : List RepoFile) (m b : Nat) :
    (∀ f : RepoFile, f.size = b → ¬ admits b f) ∧
    (0 < b → sizeSum (sampledFiles candidates m b) < b) := by
  constructor
  · intro f hf hadm
    have h2 := hadm.2
    omega
  · intro hb
    simpa [sizeSum] using samplePickGo_sizeSum_lt m (sortByPathLength candidates) [] b hb

/-- C10, witness for the amended theorem: a file as large as the whole
remaining budget is rejected, and a concrete bundle stays strictly
below a positive budget. -/
theorem strict_budget_amended_witness :
    ¬ admits defaultMaxBytes ⟨"a", 40000, ""⟩ ∧
    sizeSum (sampledFiles [⟨"a", 10, "x"⟩] defaultMaxFiles defaultMaxBytes) < defaultMaxBytes :=
  ⟨(strict_budget_amended [] defaultMaxFiles defaultMaxBytes).1 _ rfl,
   (strict_budget_amended _ defaultMaxFiles defaultMaxBytes).2 (by decide)⟩

/-- C2: for every environment (hence every sequence of apply
failures), `applyOrRetry` performs at most two `git apply` attempts and
at most one corrective re-request to the model. -/
theorem apply_attempts_bounded (env : ApplyEnv) (patch : String) :
    (applyOrRetry env patch).attempts.length ≤ 2 ∧
    (applyOrRetry env patch).reRequests ≤ 1 := by
  by_cases h1 : env.applyOk 1 patch = true
  · simp [applyOrRetry, h1]
  · by_cases h2 : env.applyOk 2 (jsTrim env.reaskRaw) = true
    · simp [applyOrRetry, retryAttempt, h1, h2]
    · simp [applyOrRetry, retryAttempt, h1, h2]

/-- C4: with a nonempty task, a first response whose trimmed text is
exactly the sentinel ends the run as a no-op before any apply attempt,
while any response whose trimmed text differs from the sentinel (for
example, the sentinel with extra surrounding text) is fed to `git
apply` as the first attempted patch and is not treated as "no
changes". -/
theorem sentinel_short_circuit (env : MainEnv) (htask : env.argvTask ≠ "") :
    (jsTrim env.firstRaw = noChangesSentinel →
      (mainRun env).outcome = RunOutcome.noChanges ∧
      (mainRun env).applyAttempts = []) ∧
    (jsTrim env.firstRaw ≠ noChangesSentinel →
      (mainRun env).applyAttempts.head? = some (jsTrim env.firstRaw) ∧
      (mainRun env).outcome ≠ RunOutcome.noChanges) := by
  constructor
  · intro hs
    simp [mainRun, htask, hs]
  · intro hs
    have hmain : mainRun env
        = finishRun env (applyOrRetry ⟨env.applyOk, env.reaskRaw⟩ (jsTrim env.firstRaw)) := by
      simp [mainRun, htask, hs]
    rcases hres : (applyOrRetry ⟨env.applyOk, env.reaskRaw⟩ (jsTrim env.firstRaw)).result
      with _ | d
    · constructor
      · rw [hmain]
        simpa [finishRun, hres] using applyOrRetry_attempts_head _ _
      · rw [hmain]
        simp [finishRun, hres]
    · constructor
      · rw [hmain]
        simpa [finishRun, hres] using applyOrRetry_attempts_head _ _
      · rw [hmain]
        simp [finishRun, hres]

/-- C4, witness: a response trimming to the sentinel short-circuits,
and a response carrying extra text around the sentinel is attempted. -/
theorem sentinel_short_circuit_witness :
    ((mainRun ⟨"t", 0, "  __NO_CHANGES__  ", "", fun _ _ => true, "main"⟩).outcome
        = RunOutcome.noChanges ∧
      (mainRun ⟨"t", 0, "  __NO_CHANGES__  ", "", fun _ _ => true, "main"⟩).applyAttempts = []) ∧
    ((mainRun ⟨"t", 0, "Note: __NO_CHANGES__", "", fun _ _ => true, "main"⟩).applyAttempts.head?
        = some "Note: __NO_CHANGES__" ∧
      (mainRun ⟨"t", 0, "Note: __NO_CHANGES__", "", fun _ _ => true, "main"⟩).outcome
        ≠ RunOutcome.noChanges) :=
  ⟨(sentinel_short_circuit _ (by decide)).1 (by decide),
   by
    have h := (sentinel_short_circuit
      ⟨"t", 0, "Note: __NO_CHANGES__", "", fun _ _ => true, "main"⟩ (by decide)).2 (by decide)
    simpa using h⟩

/-- C5: if the first apply attempt fails, exactly one corrective
re-request is made; if the second attempt also fails, the run ends with
the fatal "patch failed twice" error and nothing is committed, pushed,
or opened as a pull request. -/
theorem retry_then_fatal_no_commit (env : MainEnv)
    (htask : env.argvTask ≠ "")
    (hns : jsTrim env.firstRaw ≠ noChangesSentinel)
    (h1 : env.applyOk 1 (jsTrim env.firstRaw) = false) :
    (mainRun env).reRequests = 1 ∧
    (env.applyOk 2 (jsTrim env.reaskRaw) = false →
      (mainRun env).outcome = RunOutcome.fatalError "patch failed twice" ∧
      (mainRun env).committed = false ∧
      (mainRun env).pushed = false ∧
      (mainRun env).prOpened = []) := by
  have hmain : mainRun env
      = finishRun env (applyOrRetry ⟨env.applyOk, env.reaskRaw⟩ (jsTrim env.firstRaw)) := by
    simp [mainRun, htask, hns]
  constructor
  · rw [hmain]
    by_cases h2 : env.applyOk 2 (jsTrim env.reaskRaw) = true
    · simp [applyOrRetry, retryAttempt, h1, h2, finishRun]
    · simp [applyOrRetry, retryAttempt, h1, h2, finishRun]
  · intro h2
    rw [hmain]
    simp [applyOrRetry, retryAttempt, h1, h2, finishRun]

/-- C5, witness: both attempts fail in a concrete environment — one
re-request, fatal outcome, nothing committed, pushed or published. -/
theorem retry_then_fatal_no_commit_witness :
    (mainRun ⟨"t", 0, "bad diff", "still bad", fun _ _ => false, "main"⟩).reRequests = 1 ∧
    (mainRun ⟨"t", 0, "bad diff", "still bad", fun _ _ => false, "main"⟩).outcome
      = RunOutcome.fatalError "patch failed twice" ∧
    (mainRun ⟨"t", 0, "bad diff", "still bad", fun _ _ => false, "main"⟩).committed = false ∧
    (mainRun ⟨"t", 0, "bad diff", "still bad", fun _ _ => false, "main"⟩).pushed = false ∧
    (mainRun ⟨"t", 0, "bad diff", "still bad", fun _ _ => false, "main"⟩).prOpened = [] := by
  have h := retry_then_fatal_no_commit
    ⟨"t", 0, "bad diff", "still bad", fun _ _ => false, "main"⟩
    (by decide) (by decide) rfl
  exact ⟨h.1, (h.2 rfl).1, (h.2 rfl).2.1, (h.2 rfl).2.2.1, (h.2 rfl).2.2.2⟩

/-- C6, counterexample: the pull request's base is the hardcoded
literal `"main"`, not the repository's default branch — on a repository
whose default branch is `master`, a successful run opens a pull request
whose base differs from the default branch. -/
theorem pr_base_not_default_cex :
    (mainRun ⟨"t", 0, "d", "", fun _ _ => true, "master"⟩).prOpened.map PullRequest.base
      = ["main"] ∧
    (⟨"t", 0, "d", "", fun _ _ => true, "master"⟩ : MainEnv).defaultBranch = "master" ∧
    ∀ pr ∈ (mainRun ⟨"t", 0, "d", "", fun _ _ => true, "master"⟩).prOpened,
      pr.base ≠ (⟨"t", 0, "d", "", fun _ _ => true, "master"⟩ : MainEnv).defaultBranch := by
  refine ⟨by decide, rfl, by decide⟩

/-- C6, amended: on a successful run that produced a patch, exactly one
pull request is opened; its base is the fixed literal branch `"main"`
(the repository's default branch only when that default is `main`), and
its title and body are derived from the Task text. -/
theorem pr_opened_on_success (env : MainEnv) (p : String)
    (h : (mainRun env).outcome = RunOutcome.success p) :
    (mainRun env).prOpened = [prOf env] ∧
    (prOf env).base = "main" ∧
    (prOf env).title = "AI: " ++ env.argvTask ∧
    (prOf env).body = "Automated patch generated by OpenAI\n\nTask:\n" ++ env.argvTask := by
  refine ⟨?_, rfl, rfl, rfl⟩
  by_cases htask : env.argvTask = ""
  · simp [mainRun, htask] at h
  · by_cases hs : jsTrim env.firstRaw = noChangesSentinel
    · simp [mainRun, htask, hs] at h
    · have hmain : mainRun env
          = finishRun env (applyOrRetry ⟨env.applyOk, env.reaskRaw⟩ (jsTrim env.firstRaw)) := by
        simp [mainRun, htask, hs]
      rw [hmain] at h ⊢
      rcases hres : (applyOrRetry ⟨env.applyOk, env.reaskRaw⟩ (jsTrim env.firstRaw)).result
        with _ | d
      · simp [finishRun, hres] at h
      · simp [finishRun, hres]

/-- C6, witness for the amended theorem: a concrete successful run
opens exactly the one pull request with base `main` and task-derived
title and body. -/
theorem pr_opened_on_success_witness :
    (mainRun ⟨"t", 7, "d", "", fun _ _ => true, "main"⟩).prOpened
      = [prOf ⟨"t", 7, "d", "", fun _ _ => true, "main"⟩] ∧
    (prOf ⟨"t", 7, "d", "", fun _ _ => true, "main"⟩).base = "main" ∧
    (prOf ⟨"t", 7, "d", "", fun _ _ => true, "main"⟩).title = "AI: " ++ "t" ∧
    (prOf ⟨"t", 7, "d", "", fun _ _ => true, "main"⟩).body
      = "Automated patch generated by OpenAI\n\nTask:\n" ++ "t" :=
  pr_opened_on_success ⟨"t", 7, "d", "", fun _ _ => true, "main"⟩ "d" (by decide)

/-- C9: the sentinel check happens only on the first response — when
the first apply fails and the corrective response trims to exactly the
sentinel, that text is fed verbatim to `git apply` as the second
attempt (it is not treated as a no-op), and when `git apply` rejects
it, the run ends with the fatal "patch failed twice" error. -/
theorem retry_sentinel_not_shortcircuit (env : MainEnv)
    (htask : env.argvTask ≠ "")
    (hns : jsTrim env.firstRaw ≠ noChangesSentinel)
    (h1 : env.applyOk 1 (jsTrim env.firstRaw) = false)
    (hretry : jsTrim env.reaskRaw = noChangesSentinel) :
    (mainRun env).applyAttempts = [jsTrim env.firstRaw, noChangesSentinel] ∧
    (mainRun env).outcome ≠ RunOutcome.noChanges ∧
    (env.applyOk 2 noChangesSentinel = false →
      (mainRun env).outcome = RunOutcome.fatalError "patch failed twice") := by
  have hmain : mainRun env
      = finishRun env (applyOrRetry ⟨env.applyOk, env.reaskRaw⟩ (jsTrim env.firstRaw)) := by
    simp [mainRun, htask, hns]
  rw [hmain]
  by_cases h2 : env.applyOk 2 noChangesSentinel = true
  · refine ⟨?_, ?_, ?_⟩ <;>
      simp [applyOrRetry, retryAttempt, h1, hretry, h2, finishRun]
  · refine ⟨?_, ?_, ?_⟩ <;>
      simp [applyOrRetry, retryAttempt, h1, hretry, h2, finishRun]

/-- C9, witness: a concrete run whose corrective response is exactly
the sentinel — it becomes the second attempted patch and the run is
fatal. -/
theorem retry_sentinel_not_shortcircuit_witness :
    (mainRun ⟨"t", 0, "bad diff", " __NO_CHANGES__ ", fun _ _ => false, "main"⟩).applyAttempts
      = ["bad diff", "__NO_CHANGES__"] ∧
    (mainRun ⟨"t", 0, "bad diff", " __NO_CHANGES__ ", fun _ _ => false, "main"⟩).outcome
      ≠ RunOutcome.noChanges ∧
    (mainRun ⟨"t", 0, "bad diff", " __NO_CHANGES__ ", fun _ _ => false, "main"⟩).outcome
      = RunOutcome.fatalError "patch failed twice" := by
  have h := retry_sentinel_not_shortcircuit
    ⟨"t", 0, "bad diff", " __NO_CHANGES__ ", fun _ _ => false, "main"⟩
    (by decide) (by decide) rfl (by decide)
  exact ⟨by simpa using h.1, h.2.1, h.2.2 rfl⟩

end BuilderAssistant
